import Mathlib

/-!
Shallow embedding of the product-management backend (signup/login with JWT
bearer tokens, product CRUD with filtering/sorting/pagination, input
validation, rate limiting).  Prices are modelled as exact rationals; time is
in whole seconds.  The HTTP layer is modelled as explicit argument passing,
the outcome of a handler as `Except Err alpha`, and database state as explicit
`Catalog` / `Store` values threaded through each operation.
-/

namespace Backend

/-- HTTP-level failure surfaced to the caller: status code plus detail message
(FastAPI `HTTPException(status, detail)`, and 422 for schema/query-parameter
validation rejections, 429 for rate-limit rejections, 500 for an unhandled
`ValueError`). -/
structure Err where
  status : Nat
  detail : String
deriving DecidableEq

/-- Python `round(x, 2)` as used by `security.validate_price`, denoted over
exact rationals: round `100 * x` to the nearest integer and divide by 100. -/
def round2 (q : ℚ) : ℚ := (round (100 * q) : ℤ) / 100

/-- Strip whitespace from both ends of a character list (Python `str.strip()`
with the default whitespace set). -/
def strip_chars (l : List Char) : List Char :=
  (((l.dropWhile Char.isWhitespace).reverse).dropWhile Char.isWhitespace).reverse

/-- Python `s.strip()` over a string. -/
def py_strip (s : String) : String := String.mk (strip_chars s.data)

/-- security.sanitize_string: remove null bytes via replace, truncate to
`maxLength` characters via slicing, strip surrounding whitespace. -/
def sanitize_string (value : String) (maxLength : Nat) : String :=
  String.mk (strip_chars ((value.data.filter (fun c => c ≠ Char.ofNat 0)).take maxLength))

/-- security.validate_price: reject negative or > 1,000,000, else round to
2 decimals.  A raised `ValueError` is the `.error` branch. -/
def validate_price (price : ℚ) : Except String ℚ :=
  if price < 0 then .error "Price cannot be negative"
  else if price > 1000000 then .error "Price exceeds maximum limit of 1,000,000"
  else .ok (round2 price)

/-- security.validate_quantity: reject negative or > 1,000,000. -/
def validate_quantity (quantity : ℤ) : Except String ℤ :=
  if quantity < 0 then .error "Quantity cannot be negative"
  else if quantity > 1000000 then .error "Quantity exceeds maximum limit of 1,000,000"
  else .ok quantity

/-- security.validate_sort_parameter: allow-list check on the sort field. -/
def validate_sort_parameter (sort_by : String) (allowed_fields : List String) :
    Except String String :=
  if sort_by ∈ allowed_fields then .ok sort_by
  else .error "Invalid sort field"

/-- Python `s.lower()` over a string. -/
def py_lower (s : String) : String := String.mk (s.data.map Char.toLower)

/-- security.validate_sort_order: lowercase and check against asc/desc. -/
def validate_sort_order (order : String) : Except String String :=
  if py_lower order = "asc" ∨ py_lower order = "desc" then .ok (py_lower order)
  else .error "Sort order must be asc or desc"

/-- models.Product: a catalog row (id assigned by storage on insert). -/
structure Product where
  id : Nat
  name : String
  description : String
  price : ℚ
  quantity : ℤ
deriving DecidableEq

/-- Raw field tuple of a product request body (schemas.ProductBase before
pydantic validation). -/
structure ProductFields where
  name : String
  description : String
  price : ℚ
  quantity : ℤ
deriving DecidableEq

/-- The products table: rows in insertion order plus the next fresh id. -/
structure Catalog where
  products : List Product
  nextId : Nat
deriving DecidableEq

/-- Pydantic schemas.ProductBase validation: name 1..200 chars and non-blank
after strip (validator returns the stripped value), description 1..1000 and
non-blank after strip, price in (0, 1000000], quantity in [0, 1000000]. -/
def validateProductSchema (f : ProductFields) : Except Err ProductFields :=
  if f.name.data.length < 1 ∨ 200 < f.name.data.length then
    .error (Err.mk 422 "name: string length out of range")
  else if py_strip f.name = "" then
    .error (Err.mk 422 "Product name cannot be empty or whitespace only")
  else if f.description.data.length < 1 ∨ 1000 < f.description.data.length then
    .error (Err.mk 422 "description: string length out of range")
  else if py_strip f.description = "" then
    .error (Err.mk 422 "Description cannot be empty or whitespace only")
  else if ¬ (0 < f.price ∧ f.price ≤ 1000000) then
    .error (Err.mk 422 "price: out of range")
  else if ¬ (0 ≤ f.quantity ∧ f.quantity ≤ 1000000) then
    .error (Err.mk 422 "quantity: out of range")
  else
    .ok (ProductFields.mk (py_strip f.name) (py_strip f.description) f.price f.quantity)

/-- main.create_product handler: pydantic schema validation, then
sanitize_string on name/description, validate_price (rounds) and
validate_quantity, then insert with a fresh id.  Returns the new catalog
state and the response. -/
def create_product (c : Catalog) (f : ProductFields) : Catalog × Except Err Product :=
  match validateProductSchema f with
  | .error e => (c, .error e)
  | .ok v =>
    match validate_price v.price, validate_quantity v.quantity with
    | .error m, _ => (c, .error (Err.mk 500 m))
    | _, .error m => (c, .error (Err.mk 500 m))
    | .ok pr, .ok q =>
      let p := Product.mk c.nextId (sanitize_string v.name 200)
        (sanitize_string v.description 1000) pr q
      (Catalog.mk (c.products ++ [p]) (c.nextId + 1), .ok p)

/-- Overwrite every non-identifier field of a row from the validated input
(the `setattr` loop over `product.dict()` in main.update_product; the dict of
schemas.ProductUpdate has no id key, so id is untouched). -/
def setFields (v : ProductFields) (p : Product) : Product :=
  Product.mk p.id v.name v.description v.price v.quantity

/-- Apply `setFields` to the first row whose id matches (the row returned by
`query.filter(...).first()`). -/
def updateFirst (pid : Nat) (v : ProductFields) : List Product → List Product
  | [] => []
  | p :: ps => if p.id = pid then setFields v p :: ps else p :: updateFirst pid v ps

/-- main.update_product handler: pydantic validation, first-match lookup,
404 when absent, else overwrite all fields from the validated input.
No sanitize/validate_price/validate_quantity call is made on this path. -/
def update_product (c : Catalog) (pid : Nat) (f : ProductFields) :
    Catalog × Except Err String :=
  match validateProductSchema f with
  | .error e => (c, .error e)
  | .ok v =>
    match c.products.find? (fun p => p.id = pid) with
    | none => (c, .error (Err.mk 404 "Product not found"))
    | some _ => (Catalog.mk (updateFirst pid v c.products) c.nextId, .ok "Product updated")

/-- main_day2.get_product: point lookup by identifier, 404 when absent. -/
def get_product (c : Catalog) (pid : Nat) : Except Err Product :=
  match c.products.find? (fun p => p.id = pid) with
  | some p => .ok p
  | none => .error (Err.mk 404 "Product not found")

/-- Remove the first row whose id matches. -/
def removeFirst (pid : Nat) : List Product → List Product
  | [] => []
  | p :: ps => if p.id = pid then ps else p :: removeFirst pid ps

/-- main.delete_product handler: first-match lookup, 404 when absent, else
delete the row. -/
def delete_product (c : Catalog) (pid : Nat) : Catalog × Except Err String :=
  match c.products.find? (fun p => p.id = pid) with
  | none => (c, .error (Err.mk 404 "Product not found"))
  | some _ => (Catalog.mk (removeFirst pid c.products) c.nextId, .ok "Product deleted")

/-- Comparison by the column `getattr(models.Product, sort_by)`:
quantity, name, or (the default column) price. -/
def fieldLe (sort_by : String) (p q : Product) : Prop :=
  if sort_by = "quantity" then p.quantity ≤ q.quantity
  else if sort_by = "name" then p.name ≤ q.name
  else p.price ≤ q.price

/-- Ordering used by `order_by`: the column comparison, reversed for desc. -/
def sortRel (sort_by sort_order : String) (p q : Product) : Prop :=
  if sort_order = "desc" then fieldLe sort_by q p else fieldLe sort_by p q

instance (sb : String) : DecidableRel (fieldLe sb) := fun p q => by
  unfold fieldLe; split
  · exact inferInstance
  · split
    · exact inferInstance
    · exact inferInstance

instance (sb so : String) : DecidableRel (sortRel sb so) := fun p q => by
  unfold sortRel; split
  · exact inferInstance
  · exact inferInstance

/-- Query pipeline of main.get_products after validation, with the storage
collaborator operations `filter`/`order_by`/`offset`/`limit` denoted over the row
list: price lower-bound filter, price upper-bound filter, stable sort by the
chosen column and direction (ties keep insertion order, the ordering
contract of spec section 4.5), then drop `skip` and take `limit`. -/
def runQuery (c : Catalog) (minp maxp : Option ℚ) (sb so : String)
    (skip limit : Nat) : List Product :=
  let l1 := match minp with
    | some m => c.products.filter (fun p => decide (m ≤ p.price))
    | none => c.products
  let l2 := match maxp with
    | some m => l1.filter (fun p => decide (p.price ≤ m))
    | none => l1
  ((List.insertionSort (sortRel sb so) l2).drop skip).take limit

/-- Query-string parameters of GET /products; `none` means omitted. -/
structure ListParams where
  min_price : Option ℚ
  max_price : Option ℚ
  sort_by : Option String
  sort_order : Option String
  skip : Option Int
  limit : Option Int
deriving DecidableEq

/-- Allow-list passed to validate_sort_parameter in main.get_products. -/
def allowedSortFields : List String := ["price", "quantity", "name"]

/-- Price-bound validation inside the handler: `validate_price` is applied to
min_price / max_price when present. -/
def checkBound : Option ℚ → Except String (Option ℚ)
  | none => .ok none
  | some q => (validate_price q).map some

/-- GET /products endpoint: first the FastAPI Query layer (defaults
sort_by="price", sort_order="asc", skip=0, limit=20; regex patterns
`(price|quantity|name)` and `(asc|desc)`; bounds `skip >= 0`,
`1 <= limit <= 100`; a violation is a 422 validation rejection issued before
the handler body runs), then the handler: validate_sort_parameter,
validate_sort_order, validate_price on the bounds (an unhandled ValueError
would surface as 500), then the query pipeline. -/
def get_products (c : Catalog) (ps : ListParams) : Except Err (List Product) :=
  let sb := ps.sort_by.getD "price"
  let so := ps.sort_order.getD "asc"
  let skip := ps.skip.getD 0
  let lim := ps.limit.getD 20
  if ¬ (sb = "price" ∨ sb = "quantity" ∨ sb = "name") then
    .error (Err.mk 422 "string should match pattern (price|quantity|name)")
  else if ¬ (so = "asc" ∨ so = "desc") then
    .error (Err.mk 422 "string should match pattern (asc|desc)")
  else if skip < 0 then
    .error (Err.mk 422 "skip: input should be greater than or equal to 0")
  else if lim < 1 ∨ 100 < lim then
    .error (Err.mk 422 "limit: input out of range")
  else
    match validate_sort_parameter sb allowedSortFields with
    | .error m => .error (Err.mk 500 m)
    | .ok sb1 =>
      match validate_sort_order so with
      | .error m => .error (Err.mk 500 m)
      | .ok so1 =>
        match checkBound ps.min_price, checkBound ps.max_price with
        | .error m, _ => .error (Err.mk 500 m)
        | _, .error m => .error (Err.mk 500 m)
        | .ok minp, .ok maxp => .ok (runQuery c minp maxp sb1 so1 skip.toNat lim.toNat)

/-- Filtering step exactly as spec section 4.5 words it: start from the full
catalog, apply the `price >= min_price` filter if present, then the
`price <= max_price` filter if present. -/
def specFilter (c : Catalog) (minp maxp : Option ℚ) : List Product :=
  let afterMin := match minp with
    | some m => c.products.filter (fun p => decide (m ≤ p.price))
    | none => c.products
  match maxp with
  | some m => afterMin.filter (fun p => decide (p.price ≤ m))
  | none => afterMin

/-- List contract exactly as spec section 4.5 words it: filter, then order by
the chosen field in the chosen direction with stable insertion-order
tie-break, then skip the first `skip` results and return at most `limit` of
what remains. -/
def listSpec (c : Catalog) (minp maxp : Option ℚ) (sb so : String)
    (skip limit : Nat) : List Product :=
  ((List.insertionSort (sortRel sb so) (specFilter c minp maxp)).drop skip).take limit

/-- Process-wide signing secret (main_day3_day4.SECRET_KEY). -/
def SECRET_KEY : String := "supersecretkey"

/-- Token time-to-live in minutes (main_day3_day4.ACCESS_TOKEN_EXPIRE_MINUTES). -/
def ACCESS_TOKEN_EXPIRE_MINUTES : Nat := 30

/-- JWT claim set produced by create_access_token: subject (the `sub` claim,
absent when the dict passed by the caller had none) and absolute expiry time in
seconds. -/
structure Payload where
  sub : Option String
  exp : Nat
deriving DecidableEq

/-- An HMAC signature over a payload under a secret is denoted by the pair
(secret, payload): it verifies exactly when recomputed with the same secret
over the same payload, the defining property the verifier relies on. -/
structure Sig where
  key : String
  signed : Payload
deriving DecidableEq

/-- A serialized token: the claims it carries plus the signature attached to
it.  A forged or corrupted token is one whose signature is not the signature
the issuer would compute over its own payload. -/
structure Token where
  payload : Payload
  sig : Sig
deriving DecidableEq

/-- Signing step of `jwt.encode(claims, key, algorithm)`. -/
def jwt_sign (key : String) (p : Payload) : Sig := Sig.mk key p

/-- main_day3_day4.create_access_token: copy the data, set
`exp = now + expires_delta`, sign with the process secret. -/
def create_access_token (sub : Option String) (now : Nat) (expires_delta : Nat) : Token :=
  Token.mk (Payload.mk sub (now + expires_delta))
    (jwt_sign SECRET_KEY (Payload.mk sub (now + expires_delta)))

/-- Decode step of `jwt.decode(token, key, algorithms)` in the external jose
collaborator: fails (a JWTError) when the signature does not verify under the
process secret, or when the token is past expiry; expiry is checked per the
token invariant the spec states — the token is valid only while current time < exp. -/
def jwt_decode (t : Token) (now : Nat) : Except String Payload :=
  if t.sig ≠ jwt_sign SECRET_KEY t.payload then .error "JWTError: signature verification failed"
  else if t.payload.exp ≤ now then .error "ExpiredSignatureError: signature has expired"
  else .ok t.payload

/-- main_day3_day4.get_current_user: decode the bearer token; any JWTError
(malformed, forged, or expired) is caught and normalized to
401 "Token expired or invalid"; a decoded payload without a `sub` claim is
rejected with 401 "Invalid token"; otherwise the subject is returned. -/
def get_current_user (t : Token) (now : Nat) : Except Err String :=
  match jwt_decode t now with
  | .error _ => .error (Err.mk 401 "Token expired or invalid")
  | .ok payload =>
    match payload.sub with
    | none => .error (Err.mk 401 "Invalid token")
    | some username => .ok username

/-- models.User: an identity row of the users table. -/
structure User where
  id : Nat
  username : String
  hashed_password : String
deriving DecidableEq

/-- Modelled from the spec: `hash_password` lives in auth.py, which main.py
imports but which is absent from the sources; spec section 4.3 describes it
as a one-way salted memory-hard (argon2) hash.  Denoted as an injective
tagging of the password, so that verification (recompute and compare) holds
exactly for the original password. -/
def hash_password (password : String) : String := "argon2id$" ++ password

/-- main_day3_day4.verify_password via the passlib collaborator: re-hash the
candidate and compare against the stored digest. -/
def verify_password (plain hashed : String) : Bool := hashed = hash_password plain

/-- main_day3_day4.authenticate_user, over the users table instead of the
day-3 in-memory dict: look up by username, then verify the password against
the stored hash; `none` on unknown user or failed verification. -/
def authenticate_user (users : List User) (username password : String) : Option User :=
  match users.find? (fun u => u.username = username) with
  | none => none
  | some u => if verify_password password u.hashed_password then some u else none

/-- main.login handler (POST /token): 401 "Invalid credentials" when
authentication fails, otherwise mint a token whose subject is the stored
username, with the 30-minute TTL. -/
def login (users : List User) (username password : String) (now : Nat) :
    Except Err Token :=
  match authenticate_user users username password with
  | none => .error (Err.mk 401 "Invalid credentials")
  | some u => .ok (create_access_token (some u.username) now (ACCESS_TOKEN_EXPIRE_MINUTES * 60))

/-- The users table: rows in insertion order plus the next fresh id. -/
structure Store where
  users : List User
  nextId : Nat
deriving DecidableEq

/-- Character class of the username regex `[a-zA-Z0-9_-]` in
schemas.UserCreate. -/
def usernameCharOk (c : Char) : Bool := c.isAlphanum || c == '_' || c == '-'

/-- Pydantic schemas.UserCreate validation: username 3..50 chars over the
allowed character class; password 8..100 chars with at least one uppercase
letter and one digit. -/
def userCreateOk (username password : String) : Bool :=
  decide (3 ≤ username.data.length) && decide (username.data.length ≤ 50) &&
  username.data.all usernameCharOk &&
  decide (8 ≤ password.data.length) && decide (password.data.length ≤ 100) &&
  password.data.any Char.isUpper && password.data.any Char.isDigit

/-- main.signup handler: pydantic schema validation (FastAPI layer), then
sanitize the username, reject with 400 "Username already exists" when a row
with that username is already present (store unchanged), else insert a new
user with the hashed password. -/
def signup (s : Store) (username password : String) : Store × Except Err String :=
  if userCreateOk username password = false then
    (s, .error (Err.mk 422 "username/password: validation error"))
  else
    let name := sanitize_string username 50
    match s.users.find? (fun u => u.username = name) with
    | some _ => (s, .error (Err.mk 400 "Username already exists"))
    | none =>
      (Store.mk (s.users ++ [User.mk s.nextId name (hash_password password)]) (s.nextId + 1),
        .ok "User created successfully")

/-- Modelled from the spec: the rate-limiter internals live in the slowapi
collaborator (only the limit strings are in the sources); spec section 4.6
defines the limiter as a rolling 60-second window of request timestamps per
(caller address, endpoint class), pruned lazily on each check.  `hits` below
is the timestamp list for one such key; pruning drops timestamps 60 or more
seconds old. -/
def ratePrune (hits : List Nat) (now : Nat) : List Nat :=
  hits.filter (fun t => now - t < 60)

/-- Window check for one key: prune, then allow and record the hit when the
window holds fewer than `limit` timestamps, else reject. -/
def rateAllow (limit : Nat) (hits : List Nat) (now : Nat) : Bool × List Nat :=
  let pruned := ratePrune hits now
  if pruned.length < limit then (true, pruned ++ [now]) else (false, pruned)

/-- RATE_LIMITS["signup"] = "5/minute". -/
def signupLimit : Nat := 5

/-- POST /signup as deployed: the rate-limit decorator runs first; a rejected
request returns 429 without the handler logic touching the store. -/
def signup_endpoint (hits : List Nat) (now : Nat) (s : Store)
    (username password : String) : List Nat × Store × Except Err String :=
  match rateAllow signupLimit hits now with
  | (true, hits1) =>
    let r := signup s username password
    (hits1, r.1, r.2)
  | (false, hits1) => (hits1, s, .error (Err.mk 429 "Rate limit exceeded: 5 per 1 minute"))

/-- Run a trace of signup requests (time, username, password) through the
endpoint, recording for each request its time and whether it reached the
handler (the rate-limit decision). -/
def runSignupReqs (hits : List Nat) (s : Store) :
    List (Nat × String × String) → List (Nat × Bool)
  | [] => []
  | r :: rest =>
    match rateAllow signupLimit hits r.1 with
    | (b, hits1) =>
      let s1 := if b then (signup s r.2.1 r.2.2).1 else s
      (r.1, b) :: runSignupReqs hits1 s1 rest

/-- Reference reformulation of the sliding-window limiter used in the
analysis: `acc` is the full list of previously admitted timestamps (never
pruned); a request is admitted when fewer than `limit` admitted timestamps
lie within the last 60 seconds.  Returns the admitted times. -/
def acceptedOf (limit : Nat) : List Nat → List Nat → List Nat
  | _, [] => []
  | acc, now :: rest =>
    if (acc.filter (fun t => now - t < 60)).length < limit then
      now :: acceptedOf limit (acc ++ [now]) rest
    else
      acceptedOf limit acc rest


deriving instance DecidableEq for Except

/-! Helper lemmas shared by several of the claim theorems below. -/

theorem runQuery_eq_listSpec (c : Catalog) (minp maxp : Option ℚ) (sb so : String)
    (skip limit : Nat) :
    runQuery c minp maxp sb so skip limit = listSpec c minp maxp sb so skip limit := rfl

theorem py_lower_asc : py_lower "asc" = "asc" := by decide

theorem py_lower_desc : py_lower "desc" = "desc" := by decide

theorem countP_zero_find?_none (s : Store) (name : String)
    (hfresh : s.users.countP (fun u => u.username = name) = 0) :
    s.users.find? (fun u => u.username = name) = none := by
  refine List.find?_eq_none.mpr ?_
  intro u hu
  have := List.countP_eq_zero.mp hfresh u hu
  simpa using this

theorem updateFirst_find? (v : ProductFields) (pid : Nat) (l : List Product) (p0 : Product)
    (h : l.find? (fun p => p.id = pid) = some p0) :
    (updateFirst pid v l).find? (fun p => p.id = pid) = some (setFields v p0) := by
  induction l with
  | nil => simp at h
  | cons p ps ih =>
    by_cases hp : p.id = pid
    · rw [List.find?_cons_of_pos _ (by simpa using hp)] at h
      cases h
      simp only [updateFirst, if_pos hp]
      exact List.find?_cons_of_pos _ (by simpa [setFields] using hp)
    · rw [List.find?_cons_of_neg _ (by simpa using hp)] at h
      simp only [updateFirst, if_neg hp]
      rw [List.find?_cons_of_neg _ (by simpa using hp)]
      exact ih h

theorem round2_nonneg (q : ℚ) (h : 0 ≤ q) : 0 ≤ round2 q := by
  rw [round2]
  have hr : (0:ℤ) ≤ round (100 * q) := by
    rw [round_eq]
    exact Int.floor_nonneg.mpr (by linarith)
  have : (0:ℚ) ≤ (round (100 * q) : ℤ) := by exact_mod_cast hr
  linarith [div_nonneg this (by norm_num : (0:ℚ) ≤ 100)]

theorem round2_le_million (q : ℚ) (h : q ≤ 1000000) : round2 q ≤ 1000000 := by
  rw [round2]
  rw [div_le_iff₀ (by norm_num : (0:ℚ) < 100)]
  have hr : round (100 * q) ≤ 100000000 := by
    rw [round_eq]
    refine Int.floor_le_iff.mpr ?_
    push_cast
    linarith
  calc ((round (100 * q) : ℤ) : ℚ) ≤ ((100000000 : ℤ) : ℚ) := by exact_mod_cast hr
    _ = 1000000 * 100 := by norm_num

theorem validateProductSchema_ok (f v : ProductFields)
    (h : validateProductSchema f = .ok v) :
    v.price = f.price ∧ 0 < f.price ∧ f.price ≤ 1000000
    ∧ v.quantity = f.quantity ∧ 0 ≤ f.quantity ∧ f.quantity ≤ 1000000 := by
  rw [validateProductSchema] at h
  split_ifs at h with h1 h2 h3 h4 h5 h6
  cases h
  exact ⟨rfl, h5.1, h5.2, rfl, h6.1, h6.2⟩

theorem updateFirst_mem (pid : Nat) (v : ProductFields) (l : List Product) :
    ∀ p ∈ updateFirst pid v l, p ∈ l ∨ p.price = v.price := by
  induction l with
  | nil => intro p hp; cases hp
  | cons q qs ih =>
    intro p hp
    by_cases hq : q.id = pid
    · simp only [updateFirst, if_pos hq] at hp
      rcases List.mem_cons.mp hp with h | h
      · right; rw [h]; rfl
      · left; exact List.mem_cons_of_mem _ h
    · simp only [updateFirst, if_neg hq] at hp
      rcases List.mem_cons.mp hp with h | h
      · left; rw [h]; exact List.mem_cons_self _ _
      · rcases ih p h with h' | h'
        · left; exact List.mem_cons_of_mem _ h'
        · right; exact h'

theorem removeFirst_subset (pid : Nat) (l : List Product) :
    ∀ p ∈ removeFirst pid l, p ∈ l := by
  induction l with
  | nil => intro p hp; cases hp
  | cons q qs ih =>
    intro p hp
    by_cases hq : q.id = pid
    · simp only [removeFirst, if_pos hq] at hp
      exact List.mem_cons_of_mem _ hp
    · simp only [removeFirst, if_neg hq] at hp
      rcases List.mem_cons.mp hp with h | h
      · rw [h]; exact List.mem_cons_self _ _
      · exact List.mem_cons_of_mem _ (ih p h)

theorem filter_window_compose (acc : List Nat) (n0 now : Nat) (h : n0 ≤ now) :
    (acc.filter (fun t => n0 - t < 60)).filter (fun t => now - t < 60)
      = acc.filter (fun t => now - t < 60) := by
  rw [List.filter_filter]
  refine List.filter_congr ?_
  intro t _
  by_cases h60 : now - t < 60
  · have h0 : n0 - t < 60 := by omega
    simp [h60, h0]
  · simp [h60]

theorem runSignupReqs_eq_acceptedOf (reqs : List (Nat × String × String)) :
    ∀ (hits : List Nat) (s : Store) (acc : List Nat) (n0 : Nat),
      hits = acc.filter (fun t => n0 - t < 60) →
      (∀ r ∈ reqs, n0 ≤ r.1) →
      List.Pairwise (· ≤ ·) (reqs.map (fun r => r.1)) →
      ((runSignupReqs hits s reqs).filter (fun d => d.2)).map (fun d => d.1)
        = acceptedOf signupLimit acc (reqs.map (fun r => r.1)) := by
  induction reqs with
  | nil =>
    intro hits s acc n0 _ _ _
    rfl
  | cons r rest ih =>
    intro hits s acc n0 hhits hn0 hpw
    have hpw' : List.Pairwise (· ≤ ·) (r.1 :: rest.map (fun x => x.1)) := by simpa using hpw
    obtain ⟨hhead, htail⟩ := List.pairwise_cons.mp hpw'
    have hn0r : n0 ≤ r.1 := hn0 r (List.mem_cons_self _ _)
    have hpruned : hits.filter (fun t => r.1 - t < 60) = acc.filter (fun t => r.1 - t < 60) := by
      rw [hhits]
      exact filter_window_compose acc n0 r.1 hn0r
    have hrest : ∀ x ∈ rest, r.1 ≤ x.1 := by
      intro x hx
      exact hhead x.1 (List.mem_map_of_mem _ hx)
    simp only [runSignupReqs, rateAllow, ratePrune, hpruned, List.map_cons, acceptedOf]
    by_cases hacc : (acc.filter (fun t => r.1 - t < 60)).length < signupLimit
    · rw [if_pos hacc, if_pos hacc]
      have hnew : acc.filter (fun t => r.1 - t < 60) ++ [r.1]
          = (acc ++ [r.1]).filter (fun t => r.1 - t < 60) := by
        rw [List.filter_append]
        simp
      have hrec := ih (acc.filter (fun t => r.1 - t < 60) ++ [r.1])
        (signup s r.2.1 r.2.2).1 (acc ++ [r.1]) r.1
        (by rw [hnew]) (fun x hx => hrest x hx) htail
      simp only [List.filter_cons, List.map_cons]
      simpa using hrec
    · rw [if_neg hacc, if_neg hacc]
      have hrec := ih (acc.filter (fun t => r.1 - t < 60)) s acc r.1 rfl
        (fun x hx => hrest x hx) htail
      simp only [List.filter_cons]
      simpa using hrec

theorem acceptedOf_window (limit : Nat) (ts : List Nat) :
    ∀ (acc : List Nat) (T : Nat), List.Pairwise (· ≤ ·) ts →
      (∀ t ∈ ts, ∀ a ∈ acc, a ≤ t) →
      ((acc ++ acceptedOf limit acc ts).filter
          (fun a => decide (T ≤ a) && decide (a < T + 60))).length
        ≤ max limit ((acc.filter (fun a => decide (T ≤ a) && decide (a < T + 60))).length) := by
  induction ts with
  | nil =>
    intro acc T _ _
    simp [acceptedOf]
  | cons now rest ih =>
    intro acc T hpw hge
    obtain ⟨hhead, htail⟩ := List.pairwise_cons.mp hpw
    by_cases hacc : (acc.filter (fun t => now - t < 60)).length < limit
    · simp only [acceptedOf, if_pos hacc]
      have hrw : acc ++ now :: acceptedOf limit (acc ++ [now]) rest
          = (acc ++ [now]) ++ acceptedOf limit (acc ++ [now]) rest := by
        simp
      rw [hrw]
      have hge' : ∀ t ∈ rest, ∀ a ∈ acc ++ [now], a ≤ t := by
        intro t ht a ha
        rcases List.mem_append.mp ha with h | h
        · exact hge t (List.mem_cons_of_mem _ ht) a h
        · rcases List.mem_singleton.mp h with rfl
          exact hhead t ht
      refine le_trans (ih (acc ++ [now]) T htail hge') ?_
      by_cases hwin : (decide (T ≤ now) && decide (now < T + 60)) = true
      · have hTnow : T ≤ now ∧ now < T + 60 := by simpa using hwin
        have hsub : (acc.filter (fun a => decide (T ≤ a) && decide (a < T + 60))).length
            ≤ (acc.filter (fun t => now - t < 60)).length := by
          rw [← List.countP_eq_length_filter, ← List.countP_eq_length_filter]
          refine List.countP_mono_left ?_
          intro a ha hwa
          have h1 : T ≤ a ∧ a < T + 60 := by simpa using hwa
          have h2 : a ≤ now := hge now (List.mem_cons_self _ _) a ha
          simp only [decide_eq_true_eq]
          omega
        have hlen : ((acc ++ [now]).filter
            (fun a => decide (T ≤ a) && decide (a < T + 60))).length
            = (acc.filter (fun a => decide (T ≤ a) && decide (a < T + 60))).length + 1 := by
          rw [List.filter_append]
          simp [hwin]
        rw [hlen]
        have hle : (acc.filter (fun a => decide (T ≤ a) && decide (a < T + 60))).length + 1
            ≤ limit := by omega
        exact max_le (le_max_left _ _) (le_trans hle (le_max_left _ _))
      · have heq : (acc ++ [now]).filter (fun a => decide (T ≤ a) && decide (a < T + 60))
            = acc.filter (fun a => decide (T ≤ a) && decide (a < T + 60)) := by
          rw [List.filter_append]
          simp [hwin]
        rw [heq]
    · simp only [acceptedOf, if_neg hacc]
      exact ih acc T htail (fun t ht => hge t (List.mem_cons_of_mem _ ht))

/-! Claim theorems, one per claim of the specification, with witnesses and
counterexamples. -/

/-- C1: for every subject u and issuance time, verifying the token produced by
issue(u) with the 30-minute TTL returns u at any time strictly before
issuance + TTL, and at or after expiry it fails with the 401 Unauthorized
outcome rather than a crash. -/
theorem C1_token_expiry (u : String) (tIssue tCheck : Nat) :
    (tCheck < tIssue + ACCESS_TOKEN_EXPIRE_MINUTES * 60 →
      get_current_user (create_access_token (some u) tIssue (ACCESS_TOKEN_EXPIRE_MINUTES * 60)) tCheck
        = .ok u)
    ∧ (tIssue + ACCESS_TOKEN_EXPIRE_MINUTES * 60 ≤ tCheck →
      get_current_user (create_access_token (some u) tIssue (ACCESS_TOKEN_EXPIRE_MINUTES * 60)) tCheck
        = .error (Err.mk 401 "Token expired or invalid")) := by
  constructor
  · intro h
    simp [get_current_user, jwt_decode, create_access_token, jwt_sign, Nat.not_le.mpr h]
  · intro h
    simp [get_current_user, jwt_decode, create_access_token, jwt_sign, h]

/-- Witness for C1 at a concrete subject and clock values. -/
theorem C1_wit :
    get_current_user (create_access_token (some "admin") 0 (ACCESS_TOKEN_EXPIRE_MINUTES * 60)) 100
      = .ok "admin"
    ∧ get_current_user (create_access_token (some "admin") 0 (ACCESS_TOKEN_EXPIRE_MINUTES * 60)) 1800
        = .error (Err.mk 401 "Token expired or invalid") :=
  ⟨(C1_token_expiry "admin" 0 100).1 (by decide),
   (C1_token_expiry "admin" 0 1800).2 (by decide)⟩

/-- C2 (amended): under valid parameters the list endpoint returns exactly the
spec pipeline — filter by the price bounds, stable sort by the chosen field
and direction, drop skip, take limit — except that the bounds are first
rounded to 2 decimals by validate_price; the empty-result edge cases hold for
the rounded bounds: rounded min above rounded max yields an empty sequence,
and skip at or past the filtered result-set size yields an empty sequence,
neither being an error. -/
theorem C2_list_algorithm (c : Catalog) (minp maxp : Option ℚ) (sb so : String)
    (skip lim : Int)
    (hsb : sb = "price" ∨ sb = "quantity" ∨ sb = "name")
    (hso : so = "asc" ∨ so = "desc")
    (hskip : 0 ≤ skip) (hlim1 : 1 ≤ lim) (hlim2 : lim ≤ 100)
    (hmin : ∀ q ∈ minp, 0 ≤ q ∧ q ≤ 1000000)
    (hmax : ∀ q ∈ maxp, 0 ≤ q ∧ q ≤ 1000000) :
    get_products c (ListParams.mk minp maxp (some sb) (some so) (some skip) (some lim))
      = .ok (listSpec c (minp.map round2) (maxp.map round2) sb so skip.toNat lim.toNat)
    ∧ (∀ m ∈ minp, ∀ M ∈ maxp, round2 M < round2 m →
        get_products c (ListParams.mk minp maxp (some sb) (some so) (some skip) (some lim))
          = .ok [])
    ∧ ((specFilter c (minp.map round2) (maxp.map round2)).length ≤ skip.toNat →
        get_products c (ListParams.mk minp maxp (some sb) (some so) (some skip) (some lim))
          = .ok []) := by
  have hcb1 : checkBound minp = .ok (minp.map round2) := by
    cases minp with
    | none => rfl
    | some q =>
      obtain ⟨h1, h2⟩ := hmin q rfl
      simp [checkBound, validate_price, Except.map, not_lt.mpr h1, not_lt.mpr h2]
  have hcb2 : checkBound maxp = .ok (maxp.map round2) := by
    cases maxp with
    | none => rfl
    | some q =>
      obtain ⟨h1, h2⟩ := hmax q rfl
      simp [checkBound, validate_price, Except.map, not_lt.mpr h1, not_lt.mpr h2]
  have hnskip : ¬ (skip < 0) := not_lt.mpr hskip
  have hnlim : ¬ (lim < 1 ∨ 100 < lim) := by omega
  have hmain : get_products c (ListParams.mk minp maxp (some sb) (some so) (some skip) (some lim))
      = .ok (listSpec c (minp.map round2) (maxp.map round2) sb so skip.toNat lim.toNat) := by
    rcases hsb with rfl | rfl | rfl <;> rcases hso with rfl | rfl <;>
      simp [get_products, validate_sort_parameter, allowedSortFields, validate_sort_order,
        py_lower_asc, py_lower_desc, hcb1, hcb2, hnskip, hnlim, runQuery_eq_listSpec]
  refine ⟨hmain, ?_, ?_⟩
  · intro m hm M hM hlt
    rw [hmain]
    cases minp with
    | none => cases hm
    | some m1 =>
      cases maxp with
      | none => cases hM
      | some M1 =>
        cases hm
        cases hM
        have hfilter : specFilter c (some (round2 m)) (some (round2 M)) = [] := by
          rw [specFilter]
          refine List.filter_eq_nil_iff.mpr ?_
          intro p hp
          have hge : round2 m ≤ p.price := by
            have := List.of_mem_filter hp
            simpa using this
          simp only [decide_eq_true_eq]
          intro hle
          exact absurd (le_trans hge hle) (not_le.mpr hlt)
        simp [listSpec, hfilter]
  · intro hlen
    rw [hmain]
    have hsorted : (List.insertionSort (sortRel sb so)
        (specFilter c (minp.map round2) (maxp.map round2))).length
        = (specFilter c (minp.map round2) (maxp.map round2)).length :=
      List.length_insertionSort _ _
    have hdrop : (List.insertionSort (sortRel sb so)
        (specFilter c (minp.map round2) (maxp.map round2))).drop skip.toNat = [] :=
      List.drop_eq_nil_of_le (by rw [hsorted]; exact hlen)
    simp [listSpec, hdrop]

/-- Witness for C2 at a concrete catalog, with skip past the result-set size. -/
theorem C2_wit :
    get_products (Catalog.mk [Product.mk 1 "A" "d" 10 5] 2)
        (ListParams.mk none none (some "price") (some "asc") (some 5) (some 20))
      = .ok (listSpec (Catalog.mk [Product.mk 1 "A" "d" 10 5] 2) none none "price" "asc"
          (5 : Int).toNat (20 : Int).toNat)
    ∧ ((specFilter (Catalog.mk [Product.mk 1 "A" "d" 10 5] 2) none none).length ≤ (5 : Int).toNat →
        get_products (Catalog.mk [Product.mk 1 "A" "d" 10 5] 2)
          (ListParams.mk none none (some "price") (some "asc") (some 5) (some 20)) = .ok []) :=
  ⟨(C2_list_algorithm (Catalog.mk [Product.mk 1 "A" "d" 10 5] 2) none none "price" "asc" 5 20
      (by decide) (by decide) (by decide) (by decide) (by decide)
      (by intro q hq; cases hq) (by intro q hq; cases hq)).1,
   (C2_list_algorithm (Catalog.mk [Product.mk 1 "A" "d" 10 5] 2) none none "price" "asc" 5 20
      (by decide) (by decide) (by decide) (by decide) (by decide)
      (by intro q hq; cases hq) (by intro q hq; cases hq)).2.2⟩

/-- Counterexample to C2 as stated: min_price 10.004 strictly exceeds
max_price 10.001, yet listing a catalog holding one product priced 10.00
returns that product rather than the empty sequence, because both bounds are
rounded to 10.00 before filtering. -/
theorem C2_cex :
    (10.001 : ℚ) < 10.004
    ∧ get_products (Catalog.mk [Product.mk 1 "A" "d" 10 5] 2)
        (ListParams.mk (some 10.004) (some 10.001) none none none none)
      = .ok [Product.mk 1 "A" "d" 10 5] := by
  constructor
  · norm_num
  · have h1 : round2 (2501/250) = 10 := by
      rw [round2]
      norm_num [round_eq]
    have h2 : round2 (10001/1000) = 10 := by
      rw [round2]
      norm_num [round_eq]
    norm_num [get_products, validate_sort_parameter, allowedSortFields, validate_sort_order,
      py_lower_asc, checkBound, validate_price, Except.map, runQuery]
    simp only [h1, h2]
    decide

/-- C3 (amended): for every sort_by outside the price/quantity/name allow-list
and every sort_order outside asc/desc, the list operation is rejected by the
query-parameter pattern check with a 422 validation rejection — not a 400
BadRequest — and the rejection happens before any read of the catalog
storage: the outcome is identical for every catalog state. -/
theorem C3_invalid_sort (c c1 : Catalog) (ps : ListParams) :
    (∀ sb, ps.sort_by = some sb → sb ∉ allowedSortFields →
      get_products c ps = .error (Err.mk 422 "string should match pattern (price|quantity|name)")
      ∧ get_products c ps = get_products c1 ps)
    ∧ (∀ so, ps.sort_order = some so → so ∉ ["asc", "desc"] →
      (∃ d, get_products c ps = .error (Err.mk 422 d))
      ∧ get_products c ps = get_products c1 ps) := by
  constructor
  · intro sb hsb hnot
    have hcond : ¬ (sb = "price" ∨ sb = "quantity" ∨ sb = "name") := by
      simpa [allowedSortFields] using hnot
    constructor
    · simp [get_products, hsb, hcond]
    · simp [get_products, hsb, hcond]
  · intro so hso hnot
    have hcond : ¬ (so = "asc" ∨ so = "desc") := by
      simpa using hnot
    by_cases hsb : ¬ (ps.sort_by.getD "price" = "price" ∨ ps.sort_by.getD "price" = "quantity"
        ∨ ps.sort_by.getD "price" = "name")
    · refine ⟨⟨"string should match pattern (price|quantity|name)", ?_⟩, ?_⟩
      · simp [get_products, hsb]
      · simp [get_products, hsb]
    · refine ⟨⟨"string should match pattern (asc|desc)", ?_⟩, ?_⟩
      · simp [get_products, hsb, hso, hcond]
      · simp [get_products, hsb, hso, hcond]

/-- Witness for C3 at a concrete invalid sort_order and two catalogs. -/
theorem C3_wit :
    (∃ d, get_products (Catalog.mk [] 1) (ListParams.mk none none none (some "up") none none)
      = .error (Err.mk 422 d))
    ∧ get_products (Catalog.mk [] 1) (ListParams.mk none none none (some "up") none none)
      = get_products (Catalog.mk [Product.mk 1 "A" "d" 10 5] 2)
          (ListParams.mk none none none (some "up") none none) :=
  (C3_invalid_sort (Catalog.mk [] 1) (Catalog.mk [Product.mk 1 "A" "d" 10 5] 2)
    (ListParams.mk none none none (some "up") none none)).2 "up" rfl (by decide)

/-- Counterexample to C3 as stated: the invalid sort field id is rejected with
status 422 (a validation rejection), which is not the 400 BadRequest status
the claim names. -/
theorem C3_cex :
    get_products (Catalog.mk [] 1) (ListParams.mk none none (some "id") none none none)
      = .error (Err.mk 422 "string should match pattern (price|quantity|name)")
    ∧ (Err.mk 422 "string should match pattern (price|quantity|name)").status ≠ 400 := by
  constructor
  · decide
  · decide

/-- C4 (amended): every catalog operation preserves the invariant that every
stored price lies in [0, 1000000]; the create path stores the price rounded
to 2 decimals (which can round a positive sub-cent price down to 0, so 0 is
reachable), while the update path stores the schema-validated price without
rounding; records deleted or untouched keep their prices. -/
theorem C4_stored_price (c : Catalog) (f : ProductFields) (pid : Nat)
    (hinv : ∀ p ∈ c.products, 0 ≤ p.price ∧ p.price ≤ 1000000) :
    (∀ p ∈ (create_product c f).1.products, 0 ≤ p.price ∧ p.price ≤ 1000000)
    ∧ (∀ q, (create_product c f).2 = .ok q → q.price = round2 f.price)
    ∧ (∀ p ∈ (update_product c pid f).1.products, 0 ≤ p.price ∧ p.price ≤ 1000000)
    ∧ (∀ v, validateProductSchema f = .ok v →
        ∀ p ∈ (update_product c pid f).1.products, p ∉ c.products → p.price = f.price)
    ∧ (∀ p ∈ (delete_product c pid).1.products, 0 ≤ p.price ∧ p.price ≤ 1000000) := by
  have hcreate : ∀ x, create_product c f = x →
      (∀ p ∈ x.1.products, 0 ≤ p.price ∧ p.price ≤ 1000000)
      ∧ (∀ q, x.2 = .ok q → q.price = round2 f.price) := by
    intro x hx
    cases hv : validateProductSchema f with
    | error e =>
      simp only [create_product, hv] at hx
      cases hx
      exact ⟨hinv, by intro q hq; cases hq⟩
    | ok v =>
      obtain ⟨hvp, hfp1, hfp2, hvq, hfq1, hfq2⟩ := validateProductSchema_ok f v hv
      have hprice : validate_price v.price = .ok (round2 f.price) := by
        rw [validate_price, if_neg (not_lt.mpr (le_of_lt (hvp ▸ hfp1))),
          if_neg (not_lt.mpr (hvp ▸ hfp2)), hvp]
      have hqty : validate_quantity v.quantity = .ok v.quantity := by
        rw [validate_quantity, if_neg (not_lt.mpr (hvq ▸ hfq1)), if_neg (not_lt.mpr (hvq ▸ hfq2))]
      simp only [create_product, hv, hprice, hqty] at hx
      cases hx
      constructor
      · intro p hp
        rcases List.mem_append.mp hp with h | h
        · exact hinv p h
        · have hp1 : p.price = round2 f.price := by
            rcases List.mem_singleton.mp h with rfl
            rfl
          rw [hp1]
          exact ⟨round2_nonneg _ (le_of_lt hfp1), round2_le_million _ hfp2⟩
      · intro q hq
        cases hq
        rfl
  have hupdate : ∀ x, update_product c pid f = x →
      (∀ p ∈ x.1.products, 0 ≤ p.price ∧ p.price ≤ 1000000)
      ∧ (∀ v, validateProductSchema f = .ok v →
          ∀ p ∈ x.1.products, p ∉ c.products → p.price = f.price) := by
    intro x hx
    cases hv : validateProductSchema f with
    | error e =>
      simp only [update_product, hv] at hx
      cases hx
      refine ⟨hinv, ?_⟩
      intro v hv1
      cases hv1
    | ok v =>
      obtain ⟨hvp, hfp1, hfp2, hvq, hfq1, hfq2⟩ := validateProductSchema_ok f v hv
      cases hfind : c.products.find? (fun p => p.id = pid) with
      | none =>
        simp only [update_product, hv, hfind] at hx
        cases hx
        refine ⟨hinv, ?_⟩
        intro v1 _ p hp hnp
        exact absurd hp hnp
      | some q =>
        simp only [update_product, hv, hfind] at hx
        cases hx
        constructor
        · intro p hp
          rcases updateFirst_mem pid v c.products p hp with h | h
          · exact hinv p h
          · rw [h, hvp]
            exact ⟨le_of_lt hfp1, hfp2⟩
        · intro v1 hv1 p hp hnp
          cases hv1
          rcases updateFirst_mem pid v c.products p hp with h | h
          · exact absurd h hnp
          · rw [h, hvp]
  refine ⟨(hcreate _ rfl).1, (hcreate _ rfl).2, (hupdate _ rfl).1, (hupdate _ rfl).2, ?_⟩
  cases hfind : c.products.find? (fun p => p.id = pid) with
  | none =>
    simp only [delete_product, hfind]
    exact hinv
  | some q =>
    simp only [delete_product, hfind]
    intro p hp
    exact hinv p (removeFirst_subset pid c.products p hp)

/-- Witness for C4 at a concrete catalog and field tuple. -/
theorem C4_wit :
    (∀ p ∈ (create_product (Catalog.mk [Product.mk 1 "A" "d" 10 5] 2)
        (ProductFields.mk "B" "e" 7 3)).1.products, 0 ≤ p.price ∧ p.price ≤ 1000000)
    ∧ (∀ q, (create_product (Catalog.mk [Product.mk 1 "A" "d" 10 5] 2)
        (ProductFields.mk "B" "e" 7 3)).2 = .ok q → q.price = round2 (7 : ℚ))
    ∧ (∀ p ∈ (update_product (Catalog.mk [Product.mk 1 "A" "d" 10 5] 2) 1
        (ProductFields.mk "B" "e" 7 3)).1.products, 0 ≤ p.price ∧ p.price ≤ 1000000)
    ∧ (∀ v, validateProductSchema (ProductFields.mk "B" "e" 7 3) = .ok v →
        ∀ p ∈ (update_product (Catalog.mk [Product.mk 1 "A" "d" 10 5] 2) 1
          (ProductFields.mk "B" "e" 7 3)).1.products,
          p ∉ (Catalog.mk [Product.mk 1 "A" "d" 10 5] 2).products → p.price = (7 : ℚ))
    ∧ (∀ p ∈ (delete_product (Catalog.mk [Product.mk 1 "A" "d" 10 5] 2) 1).1.products,
        0 ≤ p.price ∧ p.price ≤ 1000000) :=
  C4_stored_price (Catalog.mk [Product.mk 1 "A" "d" 10 5] 2)
    (ProductFields.mk "B" "e" 7 3) 1 (by decide)

/-- Counterexample to C4 as stated: creating a product priced 0.001 stores
price 0, violating the strict lower bound 0 < p; and updating a product to
price 9.999 stores 9.999 unrounded, violating p rounded to 2 decimals. -/
theorem C4_cex :
    ((create_product (Catalog.mk [] 1) (ProductFields.mk "Widget" "A widget" (1/1000) 5)).1.products.map
        (fun p => p.price)) = [0]
    ∧ ¬ ((0:ℚ) < 0)
    ∧ ((update_product (Catalog.mk [Product.mk 1 "W" "d" 10 5] 2) 1
        (ProductFields.mk "W" "d" (9999/1000) 5)).1.products.map (fun p => p.price)) = [9999/1000]
    ∧ round2 (9999/1000) ≠ 9999/1000 := by
  have hval1 : validateProductSchema (ProductFields.mk "Widget" "A widget" (1/1000) 5)
      = .ok (ProductFields.mk "Widget" "A widget" (1/1000) 5) := by
    rw [validateProductSchema, if_neg (by decide), if_neg (by decide), if_neg (by decide),
      if_neg (by decide), if_neg (by norm_num), if_neg (by decide)]
    rfl
  have hval2 : validateProductSchema (ProductFields.mk "W" "d" (9999/1000) 5)
      = .ok (ProductFields.mk "W" "d" (9999/1000) 5) := by
    rw [validateProductSchema, if_neg (by decide), if_neg (by decide), if_neg (by decide),
      if_neg (by decide), if_neg (by norm_num), if_neg (by decide)]
    rfl
  have h0 : round2 (1/1000) = 0 := by
    rw [round2]
    norm_num [round_eq]
  have hp : validate_price ((1:ℚ)/1000) = .ok (round2 (1/1000)) := by
    rw [validate_price, if_neg (by norm_num), if_neg (by norm_num)]
  have hq5 : validate_quantity 5 = .ok 5 := by decide
  refine ⟨?_, by norm_num, ?_, ?_⟩
  · simp only [create_product, hval1, hp, hq5, h0]
    rfl
  · simp only [update_product, hval2]
    rfl
  · rw [round2]
    norm_num [round_eq]

/-- C5: a signup with a valid, fresh username succeeds and leaves exactly one
User record with that (sanitized) username, whose stored password is the
hash of the submitted password; a second signup with the same username fails
with the 400 Conflict outcome and leaves the store unchanged. -/
theorem C5_signup (s : Store) (username password : String)
    (hvalid : userCreateOk username password = true)
    (hfresh : s.users.countP (fun u => u.username = sanitize_string username 50) = 0) :
    (signup s username password).2 = .ok "User created successfully"
    ∧ (signup s username password).1.users.countP
        (fun u => u.username = sanitize_string username 50) = 1
    ∧ (∃ u ∈ (signup s username password).1.users,
        u.username = sanitize_string username 50 ∧ u.hashed_password = hash_password password)
    ∧ signup (signup s username password).1 username password
        = ((signup s username password).1, .error (Err.mk 400 "Username already exists")) := by
  have hnone := countP_zero_find?_none s (sanitize_string username 50) hfresh
  have hsig : signup s username password
      = (Store.mk (s.users ++ [User.mk s.nextId (sanitize_string username 50)
          (hash_password password)]) (s.nextId + 1), .ok "User created successfully") := by
    simp [signup, hvalid, hnone]
  refine ⟨by rw [hsig], ?_, ?_, ?_⟩
  · rw [hsig]
    simp [List.countP_append, hfresh, List.countP_cons]
  · rw [hsig]
    exact ⟨User.mk s.nextId (sanitize_string username 50) (hash_password password),
      by simp, rfl, rfl⟩
  · rw [hsig]
    have hfind : (s.users ++ [User.mk s.nextId (sanitize_string username 50)
        (hash_password password)]).find? (fun u => u.username = sanitize_string username 50)
        = some (User.mk s.nextId (sanitize_string username 50) (hash_password password)) := by
      rw [List.find?_append, hnone]
      simp
    simp [signup, hvalid, hfind]

set_option maxRecDepth 100000 in
/-- Witness for C5 at a concrete fresh username on an empty store. -/
theorem C5_wit :
    (signup (Store.mk [] 1) "alice_1" "Password1").2 = .ok "User created successfully"
    ∧ (signup (Store.mk [] 1) "alice_1" "Password1").1.users.countP
        (fun u => u.username = sanitize_string "alice_1" 50) = 1
    ∧ (∃ u ∈ (signup (Store.mk [] 1) "alice_1" "Password1").1.users,
        u.username = sanitize_string "alice_1" 50 ∧ u.hashed_password = hash_password "Password1")
    ∧ signup (signup (Store.mk [] 1) "alice_1" "Password1").1 "alice_1" "Password1"
        = ((signup (Store.mk [] 1) "alice_1" "Password1").1,
            .error (Err.mk 400 "Username already exists")) :=
  C5_signup (Store.mk [] 1) "alice_1" "Password1" (by decide) (by decide)

/-- C6: for a catalog containing a product with the given identifier, update
followed by point lookup returns exactly the validated field tuple with the
identifier unchanged; update of an absent identifier fails with the 404
NotFound outcome and leaves the catalog unchanged. -/
theorem C6_update_roundtrip (c : Catalog) (pid : Nat) (f v : ProductFields)
    (hv : validateProductSchema f = .ok v) :
    ((∃ p ∈ c.products, p.id = pid) →
      (update_product c pid f).2 = .ok "Product updated"
      ∧ get_product (update_product c pid f).1 pid
          = .ok (Product.mk pid v.name v.description v.price v.quantity))
    ∧ ((∀ p ∈ c.products, p.id ≠ pid) →
      update_product c pid f = (c, .error (Err.mk 404 "Product not found"))) := by
  constructor
  · intro hex
    obtain ⟨p0, hp0mem, hp0id⟩ := hex
    cases hfind : c.products.find? (fun p => p.id = pid) with
    | none =>
      have := List.find?_eq_none.mp hfind p0 hp0mem
      simp [hp0id] at this
    | some q =>
      have hqid : q.id = pid := by simpa using List.find?_some hfind
      have hupd : update_product c pid f
          = (Catalog.mk (updateFirst pid v c.products) c.nextId, .ok "Product updated") := by
        simp [update_product, hv, hfind]
      refine ⟨by rw [hupd], ?_⟩
      rw [hupd]
      have := updateFirst_find? v pid c.products q hfind
      simp [get_product, this, setFields, hqid]
  · intro hall
    have hnone : c.products.find? (fun p => p.id = pid) = none :=
      List.find?_eq_none.mpr (by intro p hp; simpa using hall p hp)
    simp [update_product, hv, hnone]

set_option maxRecDepth 100000 in
/-- Witness for C6 at a concrete catalog, both for a present and an absent
identifier. -/
theorem C6_wit :
    (update_product (Catalog.mk [Product.mk 1 "A" "d" 10 5] 2) 1
        (ProductFields.mk "B" "e" 7 3)).2 = .ok "Product updated"
    ∧ get_product (update_product (Catalog.mk [Product.mk 1 "A" "d" 10 5] 2) 1
        (ProductFields.mk "B" "e" 7 3)).1 1 = .ok (Product.mk 1 "B" "e" 7 3)
    ∧ update_product (Catalog.mk [Product.mk 1 "A" "d" 10 5] 2) 9
        (ProductFields.mk "B" "e" 7 3)
        = ((Catalog.mk [Product.mk 1 "A" "d" 10 5] 2), .error (Err.mk 404 "Product not found")) :=
  ⟨((C6_update_roundtrip (Catalog.mk [Product.mk 1 "A" "d" 10 5] 2) 1
      (ProductFields.mk "B" "e" 7 3) (ProductFields.mk "B" "e" 7 3) (by decide)).1
      (by decide)).1,
   ((C6_update_roundtrip (Catalog.mk [Product.mk 1 "A" "d" 10 5] 2) 1
      (ProductFields.mk "B" "e" 7 3) (ProductFields.mk "B" "e" 7 3) (by decide)).1
      (by decide)).2,
   (C6_update_roundtrip (Catalog.mk [Product.mk 1 "A" "d" 10 5] 2) 9
      (ProductFields.mk "B" "e" 7 3) (ProductFields.mk "B" "e" 7 3) (by decide)).2
      (by decide)⟩

/-- C7: a token whose signature does not verify (forged or corrupted) and a
token past its expiry produce the same observable Unauthorized outcome —
status 401 with detail "Token expired or invalid" — so the caller cannot
distinguish an expired token from a forged one. -/
theorem C7_indistinguishable (t1 t2 : Token) (n1 n2 : Nat)
    (hforged : t1.sig ≠ jwt_sign SECRET_KEY t1.payload)
    (hexpired : t2.payload.exp ≤ n2) :
    get_current_user t1 n1 = .error (Err.mk 401 "Token expired or invalid")
    ∧ get_current_user t2 n2 = get_current_user t1 n1 := by
  have h1 : get_current_user t1 n1 = .error (Err.mk 401 "Token expired or invalid") := by
    simp [get_current_user, jwt_decode, hforged]
  refine ⟨h1, ?_⟩
  rw [h1]
  by_cases hsig : t2.sig = jwt_sign SECRET_KEY t2.payload
  · simp [get_current_user, jwt_decode, hsig, hexpired]
  · simp [get_current_user, jwt_decode, hsig]

/-- Witness for C7: a concretely forged token and a concretely expired token. -/
theorem C7_wit :
    get_current_user (Token.mk (Payload.mk (some "admin") 1000)
        (Sig.mk "wrongkey" (Payload.mk (some "admin") 1000))) 0
      = .error (Err.mk 401 "Token expired or invalid")
    ∧ get_current_user (create_access_token (some "admin") 0 (ACCESS_TOKEN_EXPIRE_MINUTES * 60)) 5000
      = get_current_user (Token.mk (Payload.mk (some "admin") 1000)
          (Sig.mk "wrongkey" (Payload.mk (some "admin") 1000))) 0 :=
  C7_indistinguishable
    (Token.mk (Payload.mk (some "admin") 1000) (Sig.mk "wrongkey" (Payload.mk (some "admin") 1000)))
    (create_access_token (some "admin") 0 (ACCESS_TOKEN_EXPIRE_MINUTES * 60))
    0 5000 (by decide) (by decide)

/-- C8: login with an unknown username, or with a password failing
verification against the stored hash, fails with the 401 Unauthorized
outcome and no token is issued; on success a token is minted whose subject
is exactly the submitted username. -/
theorem C8_login (users : List User) (un pw : String) (now : Nat) :
    (users.find? (fun u => u.username = un) = none →
      login users un pw now = .error (Err.mk 401 "Invalid credentials"))
    ∧ (∀ u, users.find? (fun v => v.username = un) = some u →
        (verify_password pw u.hashed_password = false →
          login users un pw now = .error (Err.mk 401 "Invalid credentials"))
        ∧ (verify_password pw u.hashed_password = true →
            login users un pw now
              = .ok (create_access_token (some un) now (ACCESS_TOKEN_EXPIRE_MINUTES * 60))
            ∧ (create_access_token (some un) now (ACCESS_TOKEN_EXPIRE_MINUTES * 60)).payload.sub
              = some un)) := by
  constructor
  · intro h
    simp [login, authenticate_user, h]
  · intro u hu
    have huser : u.username = un := by
      have := List.find?_some hu
      simpa using this
    constructor
    · intro hv
      simp [login, authenticate_user, hu, hv]
    · intro hv
      subst huser
      simp [login, authenticate_user, hu, hv, create_access_token]

/-- Witness for C8 at a concrete one-user store: unknown user, wrong password,
and correct password. -/
theorem C8_wit :
    login [User.mk 1 "admin" (hash_password "Admin123")] "ghost" "Admin123" 0
      = .error (Err.mk 401 "Invalid credentials")
    ∧ login [User.mk 1 "admin" (hash_password "Admin123")] "admin" "wrongpass" 0
      = .error (Err.mk 401 "Invalid credentials")
    ∧ login [User.mk 1 "admin" (hash_password "Admin123")] "admin" "Admin123" 0
      = .ok (create_access_token (some "admin") 0 (ACCESS_TOKEN_EXPIRE_MINUTES * 60)) :=
  ⟨(C8_login [User.mk 1 "admin" (hash_password "Admin123")] "ghost" "Admin123" 0).1 (by decide),
   ((C8_login [User.mk 1 "admin" (hash_password "Admin123")] "admin" "wrongpass" 0).2
      (User.mk 1 "admin" (hash_password "Admin123")) (by decide)).1 (by decide),
   (((C8_login [User.mk 1 "admin" (hash_password "Admin123")] "admin" "Admin123" 0).2
      (User.mk 1 "admin" (hash_password "Admin123")) (by decide)).2 (by decide)).1⟩

/-- C9: along any time-ordered trace of signup requests from one caller
address, at most 5 requests within any 60-second window reach the signup
handler; and whenever 5 hits are already recorded within the window, the
next (6th) request is rejected with the 429 TooManyRequests outcome and the
credential store is left untouched by it. -/
theorem C9_signup_rate_limit (reqs : List (Nat × String × String)) (s : Store) (T : Nat)
    (hsorted : List.Pairwise (· ≤ ·) (reqs.map (fun r => r.1))) :
    ((((runSignupReqs [] s reqs).filter (fun d => d.2)).map (fun d => d.1)).filter
        (fun a => decide (T ≤ a) && decide (a < T + 60))).length ≤ 5
    ∧ (∀ (hits : List Nat) (now : Nat) (s1 : Store) (un pw : String),
        hits.length = 5 → (∀ t ∈ hits, now - t < 60) →
        signup_endpoint hits now s1 un pw
          = (hits, s1, .error (Err.mk 429 "Rate limit exceeded: 5 per 1 minute"))) := by
  constructor
  · have hbr := runSignupReqs_eq_acceptedOf reqs [] s [] 0 rfl
      (fun r _ => Nat.zero_le _) hsorted
    rw [hbr]
    have := acceptedOf_window signupLimit (reqs.map (fun r => r.1)) [] T hsorted
      (fun t _ a ha => absurd ha (List.not_mem_nil a))
    simpa [signupLimit] using this
  · intro hits now s1 un pw hlen hwin
    have hfull : hits.filter (fun t => now - t < 60) = hits :=
      List.filter_eq_self.mpr (fun a ha => by simpa using hwin a ha)
    have hnot : ¬ (hits.length < signupLimit) := by
      rw [hlen]
      simp [signupLimit]
    simp only [signup_endpoint, rateAllow, ratePrune, hfull, if_neg hnot]

set_option maxRecDepth 100000 in
/-- Witness for C9: a concrete trace of six same-minute requests, and a
concrete full window rejecting the next request. -/
theorem C9_wit :
    ((((runSignupReqs [] (Store.mk [] 1)
        [(0, "u1", "Password1"), (10, "u2", "Password1"), (20, "u3", "Password1"),
         (30, "u4", "Password1"), (40, "u5", "Password1"), (50, "u6", "Password1")]).filter
        (fun d => d.2)).map (fun d => d.1)).filter
        (fun a => decide (0 ≤ a) && decide (a < 0 + 60))).length ≤ 5
    ∧ signup_endpoint [0, 10, 20, 30, 40] 59 (Store.mk [] 1) "u7" "Password1"
        = ([0, 10, 20, 30, 40], Store.mk [] 1,
            .error (Err.mk 429 "Rate limit exceeded: 5 per 1 minute")) :=
  ⟨(C9_signup_rate_limit
      [(0, "u1", "Password1"), (10, "u2", "Password1"), (20, "u3", "Password1"),
       (30, "u4", "Password1"), (40, "u5", "Password1"), (50, "u6", "Password1")]
      (Store.mk [] 1) 0 (by decide)).1,
   (C9_signup_rate_limit
      [(0, "u1", "Password1"), (10, "u2", "Password1"), (20, "u3", "Password1"),
       (30, "u4", "Password1"), (40, "u5", "Password1"), (50, "u6", "Password1")]
      (Store.mk [] 1) 0 (by decide)).2
     [0, 10, 20, 30, 40] 59 (Store.mk [] 1) "u7" "Password1" (by decide) (by decide)⟩

/-- C10: the list operation with every query parameter omitted behaves exactly
as with sort_by price, sort_order asc, skip 0, limit 20, and in particular
returns at most 20 products. -/
theorem C10_defaults (c : Catalog) :
    get_products c (ListParams.mk none none none none none none)
      = get_products c (ListParams.mk none none (some "price") (some "asc") (some 0) (some 20))
    ∧ (∀ l, get_products c (ListParams.mk none none none none none none) = .ok l →
        l.length ≤ 20) := by
  have h : get_products c (ListParams.mk none none none none none none)
      = .ok (runQuery c none none "price" "asc" 0 20) := by
    rfl
  have h2 : get_products c (ListParams.mk none none (some "price") (some "asc") (some 0) (some 20))
      = .ok (runQuery c none none "price" "asc" 0 20) := by
    rfl
  refine ⟨by rw [h, h2], ?_⟩
  intro l hl
  rw [h] at hl
  cases hl
  have hq : runQuery c none none "price" "asc" 0 20
      = (List.insertionSort (sortRel "price" "asc") c.products).take 20 := rfl
  rw [hq, List.length_take]
  exact min_le_left _ _

/-- Witness for C10 at a concrete one-product catalog. -/
theorem C10_wit :
    get_products (Catalog.mk [Product.mk 1 "A" "d" 10 5] 2)
        (ListParams.mk none none none none none none)
      = get_products (Catalog.mk [Product.mk 1 "A" "d" 10 5] 2)
          (ListParams.mk none none (some "price") (some "asc") (some 0) (some 20))
    ∧ ([Product.mk 1 "A" "d" 10 5] : List Product).length ≤ 20 :=
  ⟨(C10_defaults (Catalog.mk [Product.mk 1 "A" "d" 10 5] 2)).1,
   (C10_defaults (Catalog.mk [Product.mk 1 "A" "d" 10 5] 2)).2
     [Product.mk 1 "A" "d" 10 5] (by decide)⟩

end Backend
